import Mathlib

/-
Shallow embedding of the Scala Native identifier demangler
(src/src/lib.rs of indoorvivants/scala-native-demangle-rs).

Strings are modelled as lists of characters (the inputs of interest are
ASCII, where Rust byte indices coincide with character indices).  Every
Rust slicing operation whose bound is not syntactically safe is guarded:
an out-of-bounds slice in Rust panics, which the model records with the
dedicated result constructor `crash`.  Debug-mode arithmetic-overflow
panics (usize underflow) are modelled the same way.  Recursive decoders
take an explicit fuel argument (Rust recursion has no such bound; the
top-level entry point supplies a budget that is ample for every input,
and exhaustion is reported with a distinguished error text).
-/

namespace SNDemangle

abbrev Str := List Char

def str (s : String) : Str := s.toList

/-- Character 0x27, used to reproduce error texts from the source. -/
def apos : Char := Char.ofNat 39

/-- Result of a decoding step: success, an error string (Rust `Err`),
or a Rust panic (`crash`). -/
inductive DRes (α : Type) where
  | ok : α → DRes α
  | err : Str → DRes α
  | crash : DRes α
deriving DecidableEq, Repr

structure DemanglingConfig where
  collapse_scala_names : Bool
  debug : Bool
deriving DecidableEq, Repr

def DEFAULT_CONFIG : DemanglingConfig := ⟨true, false⟩

/-- Marker for exhausted recursion budget (a modelling artefact; the
budget chosen by `demangle` is never exhausted on meaningful input). -/
def outOfFuel : Str := str "model: recursion budget exhausted"

/-- Value of a run of decimal digits, as `usize::from_str_radix` computes it. -/
def digitsVal (l : Str) : Nat := l.foldl (fun acc c => 10 * acc + (c.toNat - 48)) 0

def USIZE_MAX : Nat := 18446744073709551615

/-- Models `usize::from_str_radix(s, 10)` on a nonempty all-digit string:
fails only on overflow past `usize::MAX`. -/
def fromStrRadix10 (l : Str) : Option Nat :=
  if digitsVal l ≤ USIZE_MAX then some (digitsVal l) else none

/-- `fn name` of the source: length-prefixed string token.  The two raw
slices `rest[1..(1 + res)]` and `rest[0..res]` panic when fewer than
`res` bytes remain; the model returns `crash` there. -/
def name (input : Str) (cfg : DemanglingConfig) : DRes (Nat × Str) :=
  let numberEnd := (input.takeWhile (fun c => c.isDigit)).length
  if 1 ≤ numberEnd then
    let lengthStr := input.take numberEnd
    let rest := input.drop numberEnd
    match fromStrRadix10 lengthStr with
    | some res =>
      if rest.head? = some '-' then
        if 1 + res ≤ rest.length then
          .ok (numberEnd + 1 + res, (rest.drop 1).take res)
        else .crash
      else
        if res ≤ rest.length then
          .ok (numberEnd + res, rest.take res)
        else .crash
    | none => .err (str "name: invalid length")
  else .err (str "name: invalid input `" ++ input ++ str "`")

/-- `fn number` of the source: counts the leading decimal digits. -/
def number (input : Str) : Nat := (input.takeWhile (fun c => c.isDigit)).length

/-- `fn scala_root_name` of the source. -/
def scala_root_name (nm : Str) (cfg : DemanglingConfig) : Str :=
  if !cfg.collapse_scala_names then str "scala." ++ nm else nm

/-- The fixed namespace whose prefix is stripped (`immut` in the source). -/
def immut : Str := str "scala.collection.immutable."

/-- `fn common_type_name` of the source. -/
def common_type_name (nm : Str) (cfg : DemanglingConfig) : Str :=
  if !cfg.collapse_scala_names then nm
  else if nm = str "java.lang.Object" then str "Object"
  else if nm = str "java.lang.String" then str "String"
  else if nm = str "java.lang.Throwable" then str "Throwable"
  else if immut.isPrefixOf nm then nm.drop immut.length
  else nm

inductive Scope where
  | Public
  | PublicStatic
  | Private : Str → Scope
  | PrivateStatic : Str → Scope
deriving DecidableEq, Repr

/-- `fn render_scope` of the source. -/
def render_scope : Scope → Str
  | .Public => []
  | .PublicStatic => []
  | .Private inn => str "<private[" ++ inn ++ str "]>"
  | .PrivateStatic inn => str "<private[" ++ inn ++ str "]>"

/-- `fn toplevel_name` of the source: decode one name, keep the string. -/
def toplevel_name (input : Str) (cfg : DemanglingConfig) : DRes Str :=
  match name input cfg with
  | .ok t => .ok t.2
  | .err e => .err e
  | .crash => .crash

mutual

/-- `fn type_name` of the source.  The `A` branch slices
`&input[1 + consumed..]`, which panics when the inner consumed count
overshoots the remainder. -/
def type_name : Nat → Str → DemanglingConfig → DRes (Nat × Str)
  | 0, _, _ => .err outOfFuel
  | fuel+1, input, cfg =>
    match input with
    | 'v' :: _ => .ok (1, str "<c vararg>")
    | 'z' :: _ => .ok (1, scala_root_name (str "Boolean") cfg)
    | 'c' :: _ => .ok (1, scala_root_name (str "Char") cfg)
    | 'f' :: _ => .ok (1, scala_root_name (str "Float") cfg)
    | 'd' :: _ => .ok (1, scala_root_name (str "Double") cfg)
    | 'u' :: _ => .ok (1, scala_root_name (str "Unit") cfg)
    | 'l' :: _ => .ok (1, scala_root_name (str "Null") cfg)
    | 'n' :: _ => .ok (1, scala_root_name (str "Nothing") cfg)
    | 'b' :: _ => .ok (1, scala_root_name (str "Byte") cfg)
    | 's' :: _ => .ok (1, scala_root_name (str "Short") cfg)
    | 'i' :: _ => .ok (1, scala_root_name (str "Int") cfg)
    | 'j' :: _ => .ok (1, scala_root_name (str "Long") cfg)
    | 'R' :: rest =>
      match rest with
      | '_' :: _ => .ok (2, str "<c pointer>")
      | c :: _ => .err (str "type_name: after R expected _, got `" ++ [c] ++ str "` instead")
      | [] => .err (str "type_name: unexpected end of input")
    | 'L' :: rest =>
      match nullable_type_name fuel rest cfg with
      | .ok (consumed, tn) => .ok (consumed + 1, common_type_name tn cfg)
      | .err e => .err e
      | .crash => .crash
    | 'A' :: rest =>
      match type_name fuel rest cfg with
      | .ok (consumed, tn) =>
        if consumed ≤ rest.length then
          .ok (consumed + number (rest.drop consumed) + 1, str "CArray[" ++ tn ++ str "]")
        else .crash
      | .err e => .err e
      | .crash => .crash
    | 'X' :: rest =>
      match name rest cfg with
      | .ok (consumed, cls) => .ok (consumed + 1, cls)
      | .err e => .err e
      | .crash => .crash
    | other :: _ => .err (str "type_name: unexpected start character `" ++ [other] ++ str "`")
    | [] => .err (str "type_name: unexpected end of input")

/-- `fn nullable_type_name` of the source.  Note that the `X` branch
hands `input` — still carrying the leading `X` — to `name`. -/
def nullable_type_name : Nat → Str → DemanglingConfig → DRes (Nat × Str)
  | 0, _, _ => .err outOfFuel
  | fuel+1, input, cfg =>
    match input with
    | 'A' :: rest =>
      match type_name fuel rest cfg with
      | .ok (consumed, ar) => .ok (consumed + 2, str "Array[" ++ ar ++ str "]")
      | .err e => .err e
      | .crash => .crash
    | 'X' :: _ =>
      match name input cfg with
      | .ok (consumed, n) => .ok (consumed + 1, n)
      | .err e => .err e
      | .crash => .crash
    | d :: _ =>
      if d.isDigit then name input cfg
      else .err (str "nullable_type_name: unexpected start `" ++ [d] ++ str "`")
    | [] => .err (str "nullable_type_name: unexpected end of input")

end

/-- `fn read_type_names` of the source: `input[pos..]` at the loop head
panics when a decoded type overshoots the remainder. -/
def read_type_names : Nat → Str → DemanglingConfig → DRes (Nat × List Str)
  | 0, _, _ => .err outOfFuel
  | fuel+1, input, cfg =>
    match input with
    | 'E' :: _ => .ok (0, [])
    | _ =>
      match type_name fuel input cfg with
      | .ok (consumed, nm) =>
        if consumed ≤ input.length then
          match read_type_names fuel (input.drop consumed) cfg with
          | .ok (pos, rest) => .ok (consumed + pos, nm :: rest)
          | .err e => .err e
          | .crash => .crash
        else .crash
      | .err e => .err e
      | .crash => .crash

mutual

/-- `fn sig_name` of the source.  In the `K`, `P` and `D` branches the
parameter slice `type_names[0..n - 2]` (resp. `[0..n - 1]`) underflows
and panics when the decoded type-name list is empty. -/
def sig_name : Nat → Str → DemanglingConfig → DRes Str
  | 0, _, _ => .err outOfFuel
  | fuel+1, input, cfg =>
    match input with
    | 'C' :: rest =>
      match name rest cfg with
      | .ok t => .ok t.2
      | .err e => .err e
      | .crash => .crash
    | 'G' :: rest =>
      match name rest cfg with
      | .ok t => .ok t.2
      | .err e => .err e
      | .crash => .crash
    | 'I' :: _ => .ok (str "<clinit>")
    | 'F' :: rest =>
      match name rest cfg with
      | .ok (consumed, field_name) =>
        if consumed ≤ rest.length then
          match scope fuel (rest.drop consumed) cfg with
          | .ok sc => .ok (render_scope sc ++ field_name)
          | .err e => .err e
          | .crash => .crash
        else .crash
      | .err e => .err e
      | .crash => .crash
    | 'R' :: rest =>
      match read_type_names fuel rest cfg with
      | .ok t => .ok (List.intercalate (str ", ") t.2)
      | .err e => .err e
      | .crash => .crash
    | 'K' :: after_tag =>
      match name after_tag cfg with
      | .ok (consumed, nm) =>
        if consumed ≤ after_tag.length then
          match read_type_names fuel (after_tag.drop consumed) cfg with
          | .ok (_, type_names) =>
            match type_names.length with
            | 1 => .ok (nm ++ str ": " ++ List.intercalate (str ",") type_names)
            | n =>
              if n = 0 then .crash
              else .ok (nm ++ str "(" ++
                List.intercalate (str ",") (type_names.take (n - 2)) ++ str "): " ++
                ((type_names.get? (n - 1)).getD (str "???")))
          | .err e => .err e
          | .crash => .crash
        else .crash
      | .err e => .err e
      | .crash => .crash
    | 'P' :: after_tag =>
      match name after_tag cfg with
      | .ok (consumed, nm) =>
        if consumed ≤ after_tag.length then
          match read_type_names fuel (after_tag.drop consumed) cfg with
          | .ok (_, type_names) =>
            match type_names.length with
            | 1 => .ok (nm ++ str ": " ++ List.intercalate (str ",") type_names)
            | n =>
              if n = 0 then .crash
              else .ok (nm ++ str "(" ++
                List.intercalate (str ",") (type_names.take (n - 2)) ++ str "): " ++
                ((type_names.get? (n - 1)).getD (str "???")))
          | .err e => .err e
          | .crash => .crash
        else .crash
      | .err e => .err e
      | .crash => .crash
    | 'D' :: after_tag =>
      match name after_tag cfg with
      | .ok (consumed, nm) =>
        if consumed ≤ after_tag.length then
          match read_type_names fuel (after_tag.drop consumed) cfg with
          | .ok (consumed2, type_names) =>
            if consumed2 + 1 ≤ (after_tag.drop consumed).length then
              match scope fuel ((after_tag.drop consumed).drop (consumed2 + 1)) cfg with
              | .ok sc =>
                match type_names.length with
                | 1 => .ok (render_scope sc ++ nm ++ str ": " ++
                    List.intercalate (str ",") type_names)
                | n =>
                  if n = 0 then .crash
                  else .ok (render_scope sc ++ nm ++ str "(" ++
                    List.intercalate (str ",") (type_names.take (n - 1)) ++ str "): " ++
                    ((type_names.get? (n - 1)).getD (str "???")))
              | .err e => .err e
              | .crash => .crash
            else .crash
          | .err e => .err e
          | .crash => .crash
        else .crash
      | .err e => .err e
      | .crash => .crash
    | _ => .err (str "sig_name: expected to start with F/R/D/P/C/G/K/I, " ++ input)

/-- `fn scope` of the source. -/
def scope : Nat → Str → DemanglingConfig → DRes Scope
  | 0, _, _ => .err outOfFuel
  | fuel+1, input, cfg =>
    match input with
    | 'O' :: _ => .ok .Public
    | 'o' :: _ => .ok .PublicStatic
    | 'P' :: rest =>
      match defn_name fuel rest cfg with
      | .ok i => .ok (.Private i)
      | .err e => .err e
      | .crash => .crash
    | 'p' :: rest =>
      match defn_name fuel rest cfg with
      | .ok i => .ok (.PrivateStatic i)
      | .err e => .err e
      | .crash => .crash
    | _ => .err (str "scope: cannot read `" ++ input ++ str "`")

/-- `fn member_name` of the source. -/
def member_name : Nat → Str → DemanglingConfig → DRes Str
  | 0, _, _ => .err outOfFuel
  | fuel+1, input, cfg =>
    match name input cfg with
    | .ok (consumed, owner) =>
      if consumed ≤ input.length then
        match sig_name fuel (input.drop consumed) cfg with
        | .ok s => .ok (owner ++ str "." ++ s)
        | .err e => .err e
        | .crash => .crash
      else .crash
    | .err e => .err e
    | .crash => .crash

/-- `fn defn_name` of the source.  The unknown-modifier message carries
`input[0..0]`, which is the empty string. -/
def defn_name : Nat → Str → DemanglingConfig → DRes Str
  | 0, _, _ => .err outOfFuel
  | fuel+1, input, cfg =>
    match input with
    | 'T' :: rest => toplevel_name rest cfg
    | 'M' :: rest => member_name fuel rest cfg
    | _ =>
      if 0 < input.length then
        .err (str "defn_name: unknown name modifier " ++ [apos] ++ [apos])
      else .err (str "defn_name: unexpectedly empty rest of identifier")

end

/-- `fn demangle` of the source: strip the `_S` scheme marker and
dispatch.  The recursion budget doubles the input length, which is ample
(every nested call either consumes input or alternates with one that
does). -/
def demangle (input : Str) (cfg : DemanglingConfig) : DRes Str :=
  match input with
  | '_' :: 'S' :: rest => defn_name (input.length + input.length + 2) rest cfg
  | _ => .err (str "identifier doesn" ++ [apos] ++ str "t start with _S")

/-- `fn demangle_with_defaults` of the source. -/
def demangle_with_defaults (input : Str) : DRes Str :=
  demangle input DEFAULT_CONFIG

/-- Claim C1: the spec requires proxy and duplicate signatures to use the
same parameter/return split as the method production (n - 1 parameters
before the colon, last type after it).  The code instead slices
`type_names[0..n - 2]` for P and K, dropping the final parameter: on the
two-type list [Int, Int] the P and K renderings show an empty parameter
list while the D rendering on the same list shows one parameter. -/
theorem C1_actual :
    demangle (str "_SM1xP3bariiE") DEFAULT_CONFIG = .ok (str "x.bar(): Int")
  ∧ demangle (str "_SM1xK3bariiE") DEFAULT_CONFIG = .ok (str "x.bar(): Int")
  ∧ demangle (str "_SM1xD3bariiEO") DEFAULT_CONFIG = .ok (str "x.bar(Int): Int")
  ∧ str "x.bar(): Int" ≠ str "x.bar(Int): Int" := by decide

/-- Claim C2: the spec requires a TruncatedInput error when fewer than n
bytes remain after the length prefix.  The code slices `rest[0..res]`
with no bounds check and panics: on `5abc` (length prefix 5, three bytes
left) the primitive-name decoder and the whole pipeline crash instead of
returning an error result. -/
theorem C2_actual :
    name (str "5abc") DEFAULT_CONFIG = .crash
  ∧ demangle (str "_ST5abc") DEFAULT_CONFIG = .crash := by decide

/-- Claim C3: the spec says `L` then `X` then a valid primitive name
decodes to that class name.  The nullable decoder's X branch passes the
remainder still carrying the leading `X` to the name decoder, whose
digit scan then finds no digits, so every `LX`-prefixed type fails with
the name decoder's invalid-input error instead of succeeding. -/
theorem C3_actual :
    type_name 9 (str "LX3foo") DEFAULT_CONFIG = .err (str "name: invalid input `X3foo`")
  ∧ nullable_type_name 8 (str "X3foo") DEFAULT_CONFIG
      = .err (str "name: invalid input `X3foo`") := by decide

/-- Claim C4: the spec requires a MalformedSignature error when a D, P
or K signature has an empty type-name list.  With n = 0 the parameter
slice bound `n - 1` (D) or `n - 2` (P, K) underflows usize and the code
panics on all three productions instead of returning an error result. -/
theorem C4_actual :
    demangle (str "_SM1xD3barEO") DEFAULT_CONFIG = .crash
  ∧ demangle (str "_SM1xP3barE") DEFAULT_CONFIG = .crash
  ∧ demangle (str "_SM1xK3barE") DEFAULT_CONFIG = .crash := by decide

/-- Claim C5: the spec says a c-array type consumes
1 + innerConsumed + digitCount + 1 bytes.  On `Ai3_` (inner type `i`
consuming 1, one count digit, terminating underscore) that formula gives
4, but the code returns `consumed + num + 1` = 3, forgetting the `A` tag
byte that every sibling branch accounts for. -/
theorem C5_actual :
    type_name 9 (str "Ai3_") DEFAULT_CONFIG = .ok (3, str "CArray[Int]")
  ∧ (3 : Nat) ≠ 1 + 1 + 1 + 1 := by decide

/-- Claim C6, counterexample: a class name decoded via the top-level
exact-class tag `X` is returned verbatim; with collapsing enabled,
`X16java.lang.String` still renders as `java.lang.String`, not
`String`, so the collapsing step does not apply to every class name in
type position. -/
theorem C6_cex :
    type_name 9 (str "X16java.lang.String") DEFAULT_CONFIG
      = .ok (19, str "java.lang.String")
  ∧ str "java.lang.String" ≠ str "String" := by decide

/-- Claim C7, counterexample: `21a` is of the shape {n}{payload} with
n = 2 and payload `1a` of length 2, yet decoding crashes (the digit run
absorbs the payload's leading digit, producing length 21 with one byte
left) instead of returning the payload with 3 consumed. -/
theorem C7_cex :
    name (str "21a") DEFAULT_CONFIG = .crash
  ∧ str "21a" = str "2" ++ str "1a"
  ∧ (str "1a").length = digitsVal (str "2")
  ∧ DRes.crash ≠ DRes.ok ((3 : Nat), str "1a") := by decide

/-- Claim C10, counterexample: `_ST0` decodes to the empty name, but
appending the extra bytes `5abcde` after the complete encoding `0` is
not ignored: the digit run extends into the extra bytes and the decode
returns `abcde` instead of the empty name. -/
theorem C10_cex :
    demangle (str "_ST05abcde") DEFAULT_CONFIG = .ok (str "abcde")
  ∧ demangle (str "_ST0") DEFAULT_CONFIG = .ok []
  ∧ str "abcde" ≠ [] := by decide

/-- If every element of the left list satisfies the predicate and the
head of the right list (when present) does not, takeWhile over the
concatenation returns exactly the left list. -/
theorem takeWhile_append_all (p : Char → Bool) (l r : Str)
    (hl : ∀ a ∈ l, p a = true)
    (hr : ∀ ch, r.head? = some ch → p ch = false) :
    (l ++ r).takeWhile p = l := by
  induction l with
  | nil =>
    cases r with
    | nil => rfl
    | cons ch t =>
      simp only [List.nil_append, List.takeWhile_cons, hr ch rfl]
      rfl
  | cons a l ih =>
    have ha := hl a (List.mem_cons_self a l)
    simp only [List.cons_append, List.takeWhile_cons, ha, if_true]
    rw [ih (fun x hx => hl x (List.mem_cons_of_mem a hx))]

/-- The name decoder on a digit run, a payload whose length the digits
denote, and arbitrary further bytes: when the byte after the digits is
neither a digit nor the sign marker, it returns the payload and counts
the digits plus the payload. -/
theorem name_unsigned_ok (digits payload extra : Str) (cfg : DemanglingConfig)
    (hd : ∀ ch ∈ digits, ch.isDigit = true) (hne : digits ≠ [])
    (hv : digitsVal digits = payload.length) (hmax : digitsVal digits ≤ USIZE_MAX)
    (hp : ∀ ch, (payload ++ extra).head? = some ch → ch.isDigit = false ∧ ch ≠ '-') :
    name (digits ++ (payload ++ extra)) cfg = .ok (digits.length + payload.length, payload) := by
  have htw : ((digits ++ (payload ++ extra)).takeWhile (fun c => c.isDigit)) = digits :=
    takeWhile_append_all _ _ _ hd (fun ch h => (hp ch h).1)
  have hlen : 1 ≤ digits.length := List.length_pos.mpr hne
  have hnotminus : ¬((payload ++ extra).head? = some '-') := by
    intro h
    exact (hp '-' h).2 rfl
  have hle : payload.length ≤ (payload ++ extra).length := by
    rw [List.length_append]
    exact Nat.le_add_right _ _
  have hmax2 : List.length payload ≤ USIZE_MAX := hv ▸ hmax
  unfold name fromStrRadix10
  simp only [htw, if_pos hlen, List.take_left, List.drop_left, hv, if_pos hmax2,
    if_neg hnotminus, if_pos hle, List.take_left]

/-- The name decoder on a digit run, the sign marker and a payload whose
length the digits denote: the sign marker is consumed but not returned,
and any payload (and any further bytes) is accepted. -/
theorem name_sign_ok (digits payload extra : Str) (cfg : DemanglingConfig)
    (hd : ∀ ch ∈ digits, ch.isDigit = true) (hne : digits ≠ [])
    (hv : digitsVal digits = payload.length) (hmax : digitsVal digits ≤ USIZE_MAX) :
    name (digits ++ '-' :: (payload ++ extra)) cfg
      = .ok (digits.length + 1 + payload.length, payload) := by
  have htw : ((digits ++ '-' :: (payload ++ extra)).takeWhile (fun c => c.isDigit)) = digits := by
    apply takeWhile_append_all _ _ _ hd
    intro ch h
    simp only [List.head?_cons, Option.some.injEq] at h
    subst h
    decide
  have hlen : 1 ≤ digits.length := List.length_pos.mpr hne
  have hminus : ('-' :: (payload ++ extra) : Str).head? = some '-' := rfl
  have hle : 1 + payload.length ≤ ('-' :: (payload ++ extra) : Str).length := by
    simp only [List.length_cons, List.length_append]
    omega
  have hmax2 : List.length payload ≤ USIZE_MAX := hv ▸ hmax
  have hdrop : List.drop 1 ('-' :: (payload ++ extra)) = payload ++ extra := rfl
  unfold name fromStrRadix10
  simp only [htw, if_pos hlen, List.take_left, List.drop_left, hv, if_pos hmax2,
    if_pos hminus, if_pos hle, hdrop, List.take_left]

/-- One step of `demangle` on an input starting with the scheme marker
and the top-level tag. -/
theorem demangle_T (r : Str) (cfg : DemanglingConfig) :
    demangle ('_' :: 'S' :: 'T' :: r) cfg = toplevel_name r cfg := rfl

/-- One step of `type_name` on the nullable tag. -/
theorem type_name_L (k : Nat) (r : Str) (cfg : DemanglingConfig) :
    type_name (k+1) ('L' :: r) cfg
      = (match nullable_type_name k r cfg with
        | .ok (consumed, tn) => .ok (consumed + 1, common_type_name tn cfg)
        | .err e => .err e
        | .crash => .crash) := rfl

/-- One step of `type_name` on the exact-class tag. -/
theorem type_name_X (k : Nat) (r : Str) (cfg : DemanglingConfig) :
    type_name (k+1) ('X' :: r) cfg
      = (match name r cfg with
        | .ok (consumed, cls) => .ok (consumed + 1, cls)
        | .err e => .err e
        | .crash => .crash) := rfl

/-- One step of `nullable_type_name` on an input whose first character
is a decimal digit: the plain-class branch hands the whole remainder to
the name decoder. -/
theorem nullable_digit_step (k : Nat) (ch : Char) (r : Str) (cfg : DemanglingConfig)
    (h : ch.isDigit = true) :
    nullable_type_name (k+1) (ch :: r) cfg = name (ch :: r) cfg := by
  have hA : ch ≠ 'A' := by intro he; subst he; exact absurd h (by decide)
  have hX : ch ≠ 'X' := by intro he; subst he; exact absurd h (by decide)
  unfold nullable_type_name
  split
  · rename_i heq
    injection heq with h1 h2
    exact absurd h1 hA
  · rename_i heq
    injection heq with h1 h2
    exact absurd h1 hX
  · rename_i heq
    injection heq with h1 h2
    subst h1
    rw [if_pos h]
  · rename_i heq
    exact absurd heq (by simp)

/-- Any list is a Boolean prefix of itself followed by anything. -/
theorem isPrefixOf_append_self (l r : Str) : l.isPrefixOf (l ++ r) = true := by
  induction l with
  | nil => simp [List.isPrefixOf]
  | cons a t ih => simp only [List.cons_append, List.isPrefixOf_cons₂_self, ih]

/-- Claim C7, amended: for a valid primitive-name encoding of the shape
digits-then-payload where the digit run denotes the payload length, the
decoder returns the payload and consumes the digits plus the payload —
provided the payload does not begin with a decimal digit or the sign
marker (otherwise the digit run or the sign test misreads the payload,
see the counterexample).  With the sign marker inserted between the
digits and the payload, the decoder consumes one extra byte and returns
the payload unchanged, for every payload. -/
theorem C7_amended_holds :
    (∀ digits payload cfg,
      (∀ ch ∈ digits, ch.isDigit = true) → digits ≠ [] →
      digitsVal digits = payload.length → digitsVal digits ≤ USIZE_MAX →
      (∀ ch, payload.head? = some ch → ch.isDigit = false ∧ ch ≠ '-') →
      name (digits ++ payload) cfg = .ok (digits.length + payload.length, payload))
  ∧ (∀ digits payload cfg,
      (∀ ch ∈ digits, ch.isDigit = true) → digits ≠ [] →
      digitsVal digits = payload.length → digitsVal digits ≤ USIZE_MAX →
      name (digits ++ '-' :: payload) cfg
        = .ok (digits.length + 1 + payload.length, payload)) := by
  constructor
  · intro digits payload cfg hd hne hv hmax hp
    have hp2 : ∀ ch, (payload ++ ([] : Str)).head? = some ch →
        ch.isDigit = false ∧ ch ≠ '-' := by
      rw [List.append_nil]
      exact hp
    have h := name_unsigned_ok digits payload [] cfg hd hne hv hmax hp2
    rwa [List.append_nil] at h
  · intro digits payload cfg hd hne hv hmax
    have h := name_sign_ok digits payload [] cfg hd hne hv hmax
    rwa [List.append_nil] at h

/-- Claim C7, witness: the amended statement applied to the encodings
3abc (unsigned) and 3-1ab (sign marker, digit-leading payload). -/
theorem C7_amended_check :
    name (str "3" ++ str "abc") DEFAULT_CONFIG = .ok (4, str "abc")
  ∧ name (str "3" ++ '-' :: str "1ab") DEFAULT_CONFIG = .ok (5, str "1ab") := by
  constructor
  · exact C7_amended_holds.1 (str "3") (str "abc") DEFAULT_CONFIG
      (by decide) (by decide) (by decide) (by decide) (by decide)
  · exact C7_amended_holds.2 (str "3") (str "1ab") DEFAULT_CONFIG
      (by decide) (by decide) (by decide) (by decide)

/-- Claim C10, amended: a top-level definition (scheme marker, T, then a
primitive-name encoding) decodes to the encoded name with arbitrary
trailing bytes ignored, provided the payload is nonempty and does not
begin with a decimal digit or the sign marker (with an empty payload the
trailing bytes are absorbed into the parse, see the counterexample). -/
theorem C10_amended_holds (digits payload extra : Str) (cfg : DemanglingConfig)
    (hd : ∀ ch ∈ digits, ch.isDigit = true) (hne : digits ≠ [])
    (hv : digitsVal digits = payload.length) (hmax : digitsVal digits ≤ USIZE_MAX)
    (hpe : payload ≠ [])
    (hp : ∀ ch, payload.head? = some ch → ch.isDigit = false ∧ ch ≠ '-') :
    demangle ('_' :: 'S' :: 'T' :: (digits ++ (payload ++ extra))) cfg = .ok payload := by
  have hp2 : ∀ ch, (payload ++ extra).head? = some ch → ch.isDigit = false ∧ ch ≠ '-' := by
    intro ch hch
    apply hp
    cases payload with
    | nil => exact absurd rfl hpe
    | cons a t => simpa using hch
  rw [demangle_T]
  unfold toplevel_name
  rw [name_unsigned_ok digits payload extra cfg hd hne hv hmax hp2]

/-- Claim C10, witness: the amended statement applied to the name abc
with trailing bytes XYZtrailing. -/
theorem C10_amended_check :
    demangle ('_' :: 'S' :: 'T' :: (str "3" ++ (str "abc" ++ str "XYZtrailing")))
      DEFAULT_CONFIG = .ok (str "abc") :=
  C10_amended_holds (str "3") (str "abc") (str "XYZtrailing") DEFAULT_CONFIG
    (by decide) (by decide) (by decide) (by decide) (by decide) (by decide)

/-- Claim C6, amended: with collapsing enabled, a class name decoded via
the L (nullable) production is passed through the collapsing step, which
shortens the three well-known names and strips the immutable-collections
namespace; a class name decoded via the top-level exact-class tag X is
returned verbatim, with no collapsing step applied. -/
theorem C6_amended_holds :
    (∀ fuel digits payload,
      (∀ ch ∈ digits, ch.isDigit = true) → digits ≠ [] →
      digitsVal digits = payload.length → digitsVal digits ≤ USIZE_MAX →
      (∀ ch, payload.head? = some ch → ch.isDigit = false ∧ ch ≠ '-') →
      type_name (fuel+2) ('L' :: (digits ++ payload)) DEFAULT_CONFIG
        = .ok (digits.length + payload.length + 1, common_type_name payload DEFAULT_CONFIG))
  ∧ common_type_name (str "java.lang.Object") DEFAULT_CONFIG = str "Object"
  ∧ common_type_name (str "java.lang.String") DEFAULT_CONFIG = str "String"
  ∧ common_type_name (str "java.lang.Throwable") DEFAULT_CONFIG = str "Throwable"
  ∧ (∀ s : Str, common_type_name (immut ++ s) DEFAULT_CONFIG = s)
  ∧ (∀ fuel digits payload,
      (∀ ch ∈ digits, ch.isDigit = true) → digits ≠ [] →
      digitsVal digits = payload.length → digitsVal digits ≤ USIZE_MAX →
      (∀ ch, payload.head? = some ch → ch.isDigit = false ∧ ch ≠ '-') →
      type_name (fuel+1) ('X' :: (digits ++ payload)) DEFAULT_CONFIG
        = .ok (digits.length + payload.length + 1, payload)) := by
  refine ⟨?_, by decide, by decide, by decide, ?_, ?_⟩
  · intro fuel digits payload hd hne hv hmax hp
    have hp2 : ∀ ch, (payload ++ ([] : Str)).head? = some ch →
        ch.isDigit = false ∧ ch ≠ '-' := by
      rw [List.append_nil]
      exact hp
    cases digits with
    | nil => exact absurd rfl hne
    | cons a t =>
      have ha : a.isDigit = true := hd a (List.mem_cons_self a t)
      rw [type_name_L, List.cons_append,
        nullable_digit_step fuel a (t ++ payload) DEFAULT_CONFIG ha,
        ← List.cons_append]
      have h := name_unsigned_ok (a :: t) payload [] DEFAULT_CONFIG hd hne hv hmax hp2
      rw [List.append_nil] at h
      rw [h]
  · intro s
    have hO : immut ++ s ≠ str "java.lang.Object" := by
      intro hcontra
      have h2 := congrArg List.head? hcontra
      rw [show immut = 's' :: str "cala.collection.immutable." from rfl,
        List.cons_append,
        show str "java.lang.Object" = 'j' :: str "ava.lang.Object" from rfl] at h2
      simp only [List.head?_cons, Option.some.injEq] at h2
      exact absurd h2 (by decide)
    have hS : immut ++ s ≠ str "java.lang.String" := by
      intro hcontra
      have h2 := congrArg List.head? hcontra
      rw [show immut = 's' :: str "cala.collection.immutable." from rfl,
        List.cons_append,
        show str "java.lang.String" = 'j' :: str "ava.lang.String" from rfl] at h2
      simp only [List.head?_cons, Option.some.injEq] at h2
      exact absurd h2 (by decide)
    have hT : immut ++ s ≠ str "java.lang.Throwable" := by
      intro hcontra
      have h2 := congrArg List.head? hcontra
      rw [show immut = 's' :: str "cala.collection.immutable." from rfl,
        List.cons_append,
        show str "java.lang.Throwable" = 'j' :: str "ava.lang.Throwable" from rfl] at h2
      simp only [List.head?_cons, Option.some.injEq] at h2
      exact absurd h2 (by decide)
    have hpre : immut.isPrefixOf (immut ++ s) = true := isPrefixOf_append_self immut s
    unfold common_type_name
    rw [if_neg (by decide), if_neg hO, if_neg hS, if_neg hT, if_pos hpre, List.drop_left]
  · intro fuel digits payload hd hne hv hmax hp
    have hp2 : ∀ ch, (payload ++ ([] : Str)).head? = some ch →
        ch.isDigit = false ∧ ch ≠ '-' := by
      rw [List.append_nil]
      exact hp
    rw [type_name_X]
    have h := name_unsigned_ok digits payload [] DEFAULT_CONFIG hd hne hv hmax hp2
    rw [List.append_nil] at h
    rw [h]

/-- Claim C6, witness: the amended statement applied to the L-decoded
name java.lang.Object (collapsed to Object) and the X-decoded name
java.lang.String (returned verbatim). -/
theorem C6_amended_check :
    type_name (7+2) ('L' :: (str "16" ++ str "java.lang.Object")) DEFAULT_CONFIG
      = .ok (19, str "Object")
  ∧ type_name (8+1) ('X' :: (str "16" ++ str "java.lang.String")) DEFAULT_CONFIG
      = .ok (19, str "java.lang.String") := by
  constructor
  · have h := C6_amended_holds.1 7 (str "16") (str "java.lang.Object")
      (by decide) (by decide) (by decide) (by decide) (by decide)
    exact h.trans (by decide)
  · exact C6_amended_holds.2.2.2.2.2 8 (str "16") (str "java.lang.String")
      (by decide) (by decide) (by decide) (by decide) (by decide)

/-- Claim C8: an input that does not start with the two-byte scheme
marker fails with the missing-scheme error and nothing else of the input
is examined. -/
theorem C8_scheme_prefix (input : Str) (cfg : DemanglingConfig)
    (h : (str "_S").isPrefixOf input = false) :
    demangle input cfg = .err (str "identifier doesn" ++ [apos] ++ str "t start with _S") := by
  unfold demangle
  split
  · rw [show (str "_S") = ['_', 'S'] from rfl] at h
    simp [List.isPrefixOf] at h
  · rfl

/-- Claim C8, witness: the statement applied to the input hello. -/
theorem C8_scheme_prefix_check :
    demangle (str "hello") DEFAULT_CONFIG
      = .err (str "identifier doesn" ++ [apos] ++ str "t start with _S") :=
  C8_scheme_prefix (str "hello") DEFAULT_CONFIG (by decide)

/-- The value every decoder returns is independent of the debug field of
the configuration: only the collapse field is ever consulted.  Joint
induction on the recursion budget across all fuelled decoders. -/
theorem name_debug (input : Str) (c d : Bool) :
    name input ⟨c, d⟩ = name input ⟨c, false⟩ := rfl

/-- scala_root_name reads only the collapse field. -/
theorem scala_root_name_debug (nm : Str) (c d : Bool) :
    scala_root_name nm ⟨c, d⟩ = scala_root_name nm ⟨c, false⟩ := rfl

/-- common_type_name reads only the collapse field. -/
theorem common_type_name_debug (nm : Str) (c d : Bool) :
    common_type_name nm ⟨c, d⟩ = common_type_name nm ⟨c, false⟩ := rfl

/-- toplevel_name reads only the collapse field. -/
theorem toplevel_name_debug (input : Str) (c d : Bool) :
    toplevel_name input ⟨c, d⟩ = toplevel_name input ⟨c, false⟩ := rfl

/-- Every fuelled decoder returns the same value under any debug
setting as under debug off, for any collapse setting and any input. -/
theorem debug_independent (fuel : Nat) :
    (∀ input c d, type_name fuel input ⟨c, d⟩ = type_name fuel input ⟨c, false⟩)
  ∧ (∀ input c d,
      nullable_type_name fuel input ⟨c, d⟩ = nullable_type_name fuel input ⟨c, false⟩)
  ∧ (∀ input c d, read_type_names fuel input ⟨c, d⟩ = read_type_names fuel input ⟨c, false⟩)
  ∧ (∀ input c d, scope fuel input ⟨c, d⟩ = scope fuel input ⟨c, false⟩)
  ∧ (∀ input c d, sig_name fuel input ⟨c, d⟩ = sig_name fuel input ⟨c, false⟩)
  ∧ (∀ input c d, member_name fuel input ⟨c, d⟩ = member_name fuel input ⟨c, false⟩)
  ∧ (∀ input c d, defn_name fuel input ⟨c, d⟩ = defn_name fuel input ⟨c, false⟩) := by
  induction fuel with
  | zero =>
    refine ⟨?_, ?_, ?_, ?_, ?_, ?_, ?_⟩ <;> exact fun _ _ _ => rfl
  | succ fuel ih =>
    obtain ⟨ih_tn, ih_nul, ih_rtn, ih_sc, ih_sig, ih_mem, ih_def⟩ := ih
    refine ⟨?_, ?_, ?_, ?_, ?_, ?_, ?_⟩ <;> intro input c d
    · simp only [type_name, scala_root_name_debug, common_type_name_debug, name_debug,
        ih_tn, ih_nul]
    · simp only [nullable_type_name, name_debug, ih_tn]
    · simp only [read_type_names, ih_tn, ih_rtn]
    · simp only [scope, ih_def]
    · simp only [sig_name, name_debug, ih_sc, ih_rtn]
    · simp only [member_name, name_debug, ih_sig]
    · simp only [defn_name, toplevel_name_debug, ih_mem]

/-- Claim C9: for every input and every collapse setting, the result of
decode is the same whether the debug flag is on or off: the flag is read
only by the logging helpers, whose output is a side channel. -/
theorem C9_debug_invariant (input : Str) (c : Bool) :
    demangle input ⟨c, true⟩ = demangle input ⟨c, false⟩ := by
  unfold demangle
  split
  · exact (debug_independent _).2.2.2.2.2.2 _ c true
  · rfl

end SNDemangle
